import Mathlib

/-!
Verification of the S3M2P dev-dashboard process supervisor
(`SCRIPTS/dashboard.py`, class `ProjectManager`).

The supervisor's mutable state (the dictionaries `processes`, `statuses`,
`exit_codes`, plus the per-project log files) is embedded as a record of
functions from project-id strings to optional values.  OS behaviour that the
code observes (poll results, port liveness, `lsof` output, whether a process
honours SIGTERM within the grace period) is passed in as explicit oracle
parameters, and OS effects that the code performs (signals, spawn attempts)
are returned as an explicit event list.  Operations that can raise an
uncaught Python exception return `Option` (with `none` for the exception).
-/

namespace S3M2P

/-- Project status strings of `ProjectManager.statuses`. -/
inductive Status where
  | stopped
  | building
  | running
  | error
  | unmanaged
deriving DecidableEq, Repr

/-- One registry entry of the `PROJECTS` dict: display name, port,
directory (relative to the repo root) and group. -/
structure ProjectInfo where
  name : String
  port : Nat
  dir : String
  group : String
deriving DecidableEq, Repr

/-- The `PROJECTS` registry of `dashboard.py`, in dict insertion order. -/
def PROJECTS : List (String × ProjectInfo) :=
  [ ("welcome",   ⟨"Welcome",         8080, "WELCOME",              "MAIN"⟩),
    ("helios",    ⟨"Helios",          8081, "HELIOS",               "MAIN"⟩),
    ("blog",      ⟨"Blog",            8085, "BLOG",                 "MAIN"⟩),
    ("arch",      ⟨"Arch",            8087, "ARCH",                 "MAIN"⟩),
    ("mcad",      ⟨"MCAD",            8088, "MCAD",                 "MAIN"⟩),
    ("atlas",     ⟨"Atlas",           8089, "ATLAS",                "MAIN"⟩),
    ("learn",     ⟨"Learn Hub",       8086, "LEARN",                "LEARN HUB"⟩),
    ("ai",        ⟨"AI",              8100, "LEARN/AI",             "LEARN"⟩),
    ("ubuntu",    ⟨"Ubuntu",          8101, "LEARN/UBUNTU",         "LEARN"⟩),
    ("opencv",    ⟨"OpenCV",          8102, "LEARN/OPENCV",         "LEARN"⟩),
    ("arduino",   ⟨"Arduino",         8103, "LEARN/ARDUINO",        "LEARN"⟩),
    ("esp32",     ⟨"ESP32",           8104, "LEARN/ESP32",          "LEARN"⟩),
    ("swarm",     ⟨"Swarm",           8105, "LEARN/SWARM_ROBOTICS", "LEARN"⟩),
    ("slam",      ⟨"SLAM",            8106, "LEARN/SLAM",           "LEARN"⟩),
    ("git",       ⟨"Git",             8107, "LEARN/GIT",            "LEARN"⟩),
    ("ds",        ⟨"Data Structures", 8108, "LEARN/DATA_STRUCTURES","LEARN"⟩),
    ("python",    ⟨"Python",          8110, "LEARN/PYTHON",         "LEARN"⟩),
    ("sensors",   ⟨"Sensors",         8083, "LEARN/SENSORS",        "LEARN"⟩),
    ("pll",       ⟨"PLL",             8090, "TOOLS/PLL",            "TOOLS"⟩),
    ("autocrate", ⟨"Autocrate",       8084, "TOOLS/AUTOCRATE",      "TOOLS"⟩),
    ("power",     ⟨"Power",           8091, "TOOLS/POWER_CIRCUITS", "TOOLS"⟩),
    ("spice",     ⟨"SPICE",           8123, "TOOLS/SPICE",          "TOOLS"⟩),
    ("chladni",   ⟨"Chladni",         8082, "SIMULATION/CHLADNI",   "SIMULATION"⟩),
    ("handtrack", ⟨"Handtrack",       8121, "SIMULATION/HANDTRACK", "SIMULATION"⟩),
    ("powerlaw",  ⟨"Power Law",       8122, "SIMULATION/POWERLAW",  "SIMULATION"⟩) ]

/-- Dict lookup `PROJECTS[project_id]` / the `project_id in PROJECTS` test. -/
def findInfo (pid : String) : Option ProjectInfo :=
  (PROJECTS.find? (fun x => x.1 == pid)).map Prod.snd

/-- An owned `subprocess.Popen` handle, bundled with the OS behaviour this
process will exhibit when the supervisor signals and waits for it:
whether `os.getpgid`/`os.killpg` succeed at the SIGTERM and SIGKILL points,
whether `proc.wait(timeout=3)` returns within the grace period, and the
value of `proc.returncode` once `stop`'s sequence completes (this is `none`
when the process was force-killed without a further reaping wait). -/
structure Proc where
  pid : Nat
  pgid : Nat
  term_ok : Bool
  exits_in_grace : Bool
  kill_ok : Bool
  returncode : Option Int
deriving DecidableEq, Repr

/-- Observable OS effects performed by the supervisor's operations. -/
inductive Event where
  | sigterm_pg (pgid : Nat)
  | sigkill_pg (pgid : Nat)
  | wait_grace (seconds : Nat)
  | term_pid (p : Nat)
  | spawn_attempt
deriving DecidableEq, Repr

/-- Oracle inputs consumed by one `start` call: whether `index.html` and
`Trunk.toml` exist in the project directory, and the outcome of
`subprocess.Popen` (`none` models `FileNotFoundError`). -/
structure StartEnv where
  index_html : Bool
  trunk_toml : Bool
  spawn : Option Proc
deriving Repr

/-- The supervisor's mutable per-project state: the `processes`, `statuses`
and `exit_codes` dicts of `ProjectManager`, plus the contents (as a list of
lines) of each per-project log file under `LOG_DIR`.  A `none` value models
an absent dict key (resp. a log file that does not exist). -/
structure ManagerState where
  processes : String → Option Proc
  statuses : String → Option Status
  exit_codes : String → Option Int
  logs : String → Option (List String)

/-- Pointwise update of one key, modelling `d[k] = v` (and `del d[k]` when
`v = none`). -/
def upd {α : Type} (f : String → Option α) (k : String) (v : Option α) :
    String → Option α :=
  fun x => if x = k then v else f x

/-- The status test `in ("running", "building", "unmanaged")` used by
`start`, `stop_all` and `stop_group` (applied to `statuses.get(pid)`). -/
def inActiveSet : Option Status → Bool
  | some .running => true
  | some .building => true
  | some .unmanaged => true
  | _ => false

/-- `ProjectManager.__init__`: every registry id is seeded `unmanaged` when
its port is already open and `stopped` otherwise; `exit_codes` are all
`None`; no processes are owned.  The constructor does not touch the log
files, so their prior contents are a parameter. -/
def initState (live : Nat → Bool) (logs0 : String → Option (List String)) :
    ManagerState :=
  { processes := fun _ => none
  , statuses := fun pid =>
      match findInfo pid with
      | some info => some (if live info.port then Status.unmanaged else Status.stopped)
      | none => none
  , exit_codes := fun _ => none
  , logs := logs0 }

/-- `ProjectManager.start`.  Returns the boolean result, the new state, and
the OS events performed.  Caught exceptions (`FileNotFoundError`) are part
of the oracle; no uncaught exception is possible in this method. -/
def start (env : StartEnv) (pid : String) (s : ManagerState) :
    Bool × ManagerState × List Event :=
  match findInfo pid with
  | none => (false, s, [])
  | some _info =>
    if inActiveSet (s.statuses pid) then (false, s, [])
    else if env.index_html = false ∧ env.trunk_toml = false then
      (false, { s with statuses := upd s.statuses pid (some .error) }, [])
    else
      -- open(log_file, "w") truncates the per-project log before Popen
      match env.spawn with
      | none =>
        (false,
         { s with logs := upd s.logs pid (some [])
                , statuses := upd s.statuses pid (some .error) },
         [Event.spawn_attempt])
      | some proc =>
        (true,
         { s with logs := upd s.logs pid (some [])
                , processes := upd s.processes pid (some proc)
                , statuses := upd s.statuses pid (some .building)
                , exit_codes := upd s.exit_codes pid none },
         [Event.spawn_attempt])

/-- The best-effort SIGTERMs of `ProjectManager._kill_port`: `lsof port`
yields the pids listening on the port (`none` when `lsof` is missing or
times out, in which case the whole attempt is swallowed). -/
def kill_port_events (lsof : Nat → Option (List Nat)) (port : Nat) :
    List Event :=
  match lsof port with
  | none => []
  | some pids => pids.map Event.term_pid

/-- `ProjectManager.stop`.  Returns `none` for an uncaught exception: the
only such point is the `PROJECTS[project_id]` lookup in the unmanaged
branch, reachable only for an id outside the registry (which in the running
program never carries status `unmanaged`). -/
def stop (lsof : Nat → Option (List Nat)) (pid : String) (s : ManagerState) :
    Option (Bool × ManagerState × List Event) :=
  match s.processes pid with
  | none =>
    if s.statuses pid = some Status.unmanaged then
      match findInfo pid with
      | none => none
      | some info =>
        some (true,
          { s with statuses := upd s.statuses pid (some .stopped) },
          kill_port_events lsof info.port)
    else
      some (false, s, [])
  | some proc =>
    some (true,
      { s with processes := upd s.processes pid none
             , statuses := upd s.statuses pid (some .stopped)
             , exit_codes := upd s.exit_codes pid proc.returncode },
      (if proc.term_ok then [Event.sigterm_pg proc.pgid] else [])
        ++ Event.wait_grace 3 ::
          (if proc.exits_in_grace then []
           else if proc.kill_ok then [Event.sigkill_pg proc.pgid] else []))

/-- One iteration of the `update_statuses` loop for project `pid`.
`live` is the port probe `_port_open`, `poll` gives `proc.poll()` for the
owned process with that OS pid this tick (`none` = still running).
When the project has no owned process and no status entry the Python code
would raise `KeyError`; that point is unreachable in the running program
(`__init__` seeds a status for every registry id) and falls under the
final catch-all here. -/
def stepProject (live : Nat → Bool) (poll : Nat → Option Int)
    (pid : String) (info : ProjectInfo) (s : ManagerState) : ManagerState :=
  match s.processes pid with
  | some proc =>
    match poll proc.pid with
    | some rc =>
      { s with exit_codes := upd s.exit_codes pid (some rc)
             , processes := upd s.processes pid none
             , statuses := upd s.statuses pid
                 (some (if rc = 0 then Status.stopped else Status.error)) }
    | none =>
      { s with statuses := upd s.statuses pid
                 (some (if live info.port then Status.running else Status.building)) }
  | none =>
    match s.statuses pid with
    | some .unmanaged =>
      if live info.port then s
      else { s with statuses := upd s.statuses pid (some .stopped) }
    | some .stopped =>
      if live info.port then { s with statuses := upd s.statuses pid (some .unmanaged) }
      else s
    | _ => s

/-- `ProjectManager.update_statuses`: one reconciliation tick over every
registry project in order. -/
def update_statuses (live : Nat → Bool) (poll : Nat → Option Int)
    (s : ManagerState) : ManagerState :=
  PROJECTS.foldl (fun t x => stepProject live poll x.1 x.2 t) s

/-- Caller-visible effect of `ProjectManager.start_all`: the method only
spawns a daemon thread running its `_staggered` body and returns, so the
caller observes no state change. -/
def start_all_sync (s : ManagerState) : ManagerState := s

/-- Caller-visible effect of `ProjectManager.start_group`: as for
`start_all`, the iteration happens on a daemon thread. -/
def start_group_sync (_group : String) (s : ManagerState) : ManagerState := s

/-- The `_staggered` body run by `start_all`'s background thread: start
every currently-`stopped` project in registry order (the `time.sleep(1)`
between spawns has no effect on manager state). -/
def start_all_background (envs : String → StartEnv) (s : ManagerState) :
    ManagerState :=
  PROJECTS.foldl
    (fun t x =>
      if t.statuses x.1 = some Status.stopped then (start (envs x.1) x.1 t).2.1 else t)
    s

/-- The `_staggered` body run by `start_group`'s background thread. -/
def start_group_background (group : String) (envs : String → StartEnv)
    (s : ManagerState) : ManagerState :=
  PROJECTS.foldl
    (fun t x =>
      if x.2.group = group ∧ t.statuses x.1 = some Status.stopped then
        (start (envs x.1) x.1 t).2.1
      else t)
    s

/-- One iteration of the `stop_all` loop: stop `pid` when its status is
running, building or unmanaged.  `stop` cannot raise here for registry ids;
the `none` fallback is unreachable in the running program. -/
def stopAllStep (lsof : Nat → Option (List Nat)) (pid : String)
    (_info : ProjectInfo) (t : ManagerState) : ManagerState :=
  if inActiveSet (t.statuses pid) then
    match stop lsof pid t with
    | some r => r.2.1
    | none => t
  else t

/-- `ProjectManager.stop_all`: runs its whole loop synchronously in the
caller (the source spawns no thread here). -/
def stop_all (lsof : Nat → Option (List Nat)) (s : ManagerState) :
    ManagerState :=
  PROJECTS.foldl (fun t x => stopAllStep lsof x.1 x.2 t) s

/-- One iteration of the `stop_group` loop. -/
def stopGroupStep (group : String) (lsof : Nat → Option (List Nat))
    (pid : String) (info : ProjectInfo) (t : ManagerState) : ManagerState :=
  if info.group = group ∧ inActiveSet (t.statuses pid) then
    match stop lsof pid t with
    | some r => r.2.1
    | none => t
  else t

/-- `ProjectManager.stop_group`: also fully synchronous in the caller. -/
def stop_group (group : String) (lsof : Nat → Option (List Nat))
    (s : ManagerState) : ManagerState :=
  PROJECTS.foldl (fun t x => stopGroupStep group lsof x.1 x.2 t) s

/-- The four per-project entries of the manager state, used to reason about
the per-project locality of the loop bodies. -/
def entriesAt (s : ManagerState) (pid : String) :
    Option Proc × Option Status × Option Int × Option (List String) :=
  (s.processes pid, s.statuses pid, s.exit_codes pid, s.logs pid)

/-- The ownership invariant of the spec's data model: an owned handle is
present only while the project's status is `building` or `running`. -/
def Inv (s : ManagerState) : Prop :=
  ∀ pid proc, s.processes pid = some proc →
    s.statuses pid = some Status.building ∨ s.statuses pid = some Status.running

theorem upd_self {α : Type} (f : String → Option α) (k : String) (v : Option α) :
    upd f k v k = v := by
  simp [upd]

theorem upd_ne {α : Type} (f : String → Option α) (k : String) (v : Option α)
    (p : String) (h : p ≠ k) : upd f k v p = f p := by
  simp [upd, h]

theorem projects_keys_nodup : (PROJECTS.map Prod.fst).Nodup := by decide

theorem entriesAt_processes {s₁ s₂ : ManagerState} {q : String}
    (h : entriesAt s₁ q = entriesAt s₂ q) : s₁.processes q = s₂.processes q :=
  congrArg (fun e => e.1) h

theorem entriesAt_statuses {s₁ s₂ : ManagerState} {q : String}
    (h : entriesAt s₁ q = entriesAt s₂ q) : s₁.statuses q = s₂.statuses q :=
  congrArg (fun e => e.2.1) h

theorem entriesAt_exit_codes {s₁ s₂ : ManagerState} {q : String}
    (h : entriesAt s₁ q = entriesAt s₂ q) : s₁.exit_codes q = s₂.exit_codes q :=
  congrArg (fun e => e.2.2.1) h

theorem entriesAt_logs {s₁ s₂ : ManagerState} {q : String}
    (h : entriesAt s₁ q = entriesAt s₂ q) : s₁.logs q = s₂.logs q :=
  congrArg (fun e => e.2.2.2) h

/-- The pure per-project transition on the four entries, used to factor
`stepProject`. -/
def stepEntries (live : Nat → Bool) (poll : Nat → Option Int) (info : ProjectInfo)
    (e : Option Proc × Option Status × Option Int × Option (List String)) :
    Option Proc × Option Status × Option Int × Option (List String) :=
  match e with
  | (some proc, _st, _ec, lg) =>
    match poll proc.pid with
    | some rc =>
      (none, some (if rc = 0 then Status.stopped else Status.error), some rc, lg)
    | none =>
      (some proc,
       some (if live info.port then Status.running else Status.building),
       e.2.2.1, lg)
  | (none, some Status.unmanaged, ec, lg) =>
    (none, some (if live info.port then Status.unmanaged else Status.stopped), ec, lg)
  | (none, some Status.stopped, ec, lg) =>
    (none, some (if live info.port then Status.unmanaged else Status.stopped), ec, lg)
  | e => e

/-- `stepProject`, observed at its own project, is `stepEntries` applied to
that project's entries. -/
theorem stepProject_entries (live : Nat → Bool) (poll : Nat → Option Int)
    (q : String) (info : ProjectInfo) (s : ManagerState) :
    entriesAt (stepProject live poll q info s) q
      = stepEntries live poll info (entriesAt s q) := by
  unfold stepProject stepEntries entriesAt
  split
  · rename_i proc hp
    split
    · rename_i rc hr
      simp [hp, hr, upd_self]
    · rename_i hr
      simp [hp, hr, upd_self]
  · rename_i hp
    split
    · rename_i hs
      split <;> simp [hp, hs, upd_self]
    · rename_i hs
      split <;> simp [hp, hs, upd_self]
    · rename_i hs hne
      rcases h2 : s.statuses q with _ | st
      · simp [hp, h2]
      · cases st
        · exact absurd h2 hne
        · simp [hp, h2]
        · simp [hp, h2]
        · simp [hp, h2]
        · exact absurd h2 hs

/-- `stepProject` leaves every other project's entries untouched. -/
theorem stepProject_frame (live : Nat → Bool) (poll : Nat → Option Int)
    (q : String) (info : ProjectInfo) (s : ManagerState) (p : String)
    (h : p ≠ q) :
    entriesAt (stepProject live poll q info s) p = entriesAt s p := by
  unfold stepProject
  split
  · split <;> simp [entriesAt, upd_ne _ _ _ _ h]
  · split <;> first
      | rfl
      | (split <;> simp [entriesAt, upd_ne _ _ _ _ h])

/-- `stepProject` at `q` depends only on the state's entries at `q`. -/
theorem stepProject_local (live : Nat → Bool) (poll : Nat → Option Int)
    (q : String) (info : ProjectInfo) (s₁ s₂ : ManagerState)
    (h : entriesAt s₁ q = entriesAt s₂ q) :
    entriesAt (stepProject live poll q info s₁) q
      = entriesAt (stepProject live poll q info s₂) q := by
  rw [stepProject_entries, stepProject_entries, h]

/-- A fold of per-project steps leaves untouched the entries of a project
whose id appears in none of the iterated pairs. -/
theorem foldl_entriesAt_notmem
    (F : String → ProjectInfo → ManagerState → ManagerState)
    (hframe : ∀ q info s p, p ≠ q → entriesAt (F q info s) p = entriesAt s p)
    (l : List (String × ProjectInfo)) (pid : String)
    (hpid : ∀ x ∈ l, x.1 ≠ pid) (s : ManagerState) :
    entriesAt (l.foldl (fun t x => F x.1 x.2 t) s) pid = entriesAt s pid := by
  induction l generalizing s with
  | nil => rfl
  | cons x xs ih =>
    rw [List.foldl_cons,
        ih (fun y hy => hpid y (List.mem_cons_of_mem x hy)) (F x.1 x.2 s)]
    exact hframe x.1 x.2 s pid (Ne.symm (hpid x (List.mem_cons_self x xs)))

/-- When the iterated pairs have pairwise distinct ids and each step writes
only its own project's entries and reads only those entries, the fold's
effect on one member's entries is that member's single step applied to the
initial state. -/
theorem foldl_entriesAt
    (F : String → ProjectInfo → ManagerState → ManagerState)
    (hframe : ∀ q info s p, p ≠ q → entriesAt (F q info s) p = entriesAt s p)
    (hlocal : ∀ q info s₁ s₂, entriesAt s₁ q = entriesAt s₂ q →
        entriesAt (F q info s₁) q = entriesAt (F q info s₂) q)
    (l : List (String × ProjectInfo)) (hnd : (l.map Prod.fst).Nodup)
    (pid : String) (info : ProjectInfo) (hmem : (pid, info) ∈ l)
    (s : ManagerState) :
    entriesAt (l.foldl (fun t x => F x.1 x.2 t) s) pid
      = entriesAt (F pid info s) pid := by
  induction l generalizing s with
  | nil => cases hmem
  | cons x xs ih =>
    rw [List.map_cons, List.nodup_cons] at hnd
    rw [List.foldl_cons]
    rcases List.mem_cons.mp hmem with heq | hmem'
    · subst heq
      apply foldl_entriesAt_notmem F hframe xs pid ?_ (F pid info s)
      intro y hy he
      have h1 : y.1 ∈ xs.map Prod.fst := List.mem_map_of_mem Prod.fst hy
      rw [he] at h1
      exact hnd.1 h1
    · have hx : x.1 ≠ pid := by
        intro he
        have h1 : pid ∈ xs.map Prod.fst := List.mem_map_of_mem Prod.fst hmem'
        rw [← he] at h1
        exact hnd.1 h1
      have hagree : entriesAt (F x.1 x.2 s) pid = entriesAt s pid :=
        hframe x.1 x.2 s pid (Ne.symm hx)
      rw [ih hnd.2 hmem' (F x.1 x.2 s)]
      exact hlocal pid info (F x.1 x.2 s) s hagree

/-- Branch equation for `stop` with an owned handle. -/
theorem stop_owned (lsof : Nat → Option (List Nat)) (pid : String)
    (s : ManagerState) (proc : Proc) (hp : s.processes pid = some proc) :
    stop lsof pid s = some (true,
      { s with processes := upd s.processes pid none
             , statuses := upd s.statuses pid (some .stopped)
             , exit_codes := upd s.exit_codes pid proc.returncode },
      (if proc.term_ok then [Event.sigterm_pg proc.pgid] else [])
        ++ Event.wait_grace 3 ::
          (if proc.exits_in_grace then []
           else if proc.kill_ok then [Event.sigkill_pg proc.pgid] else [])) := by
  unfold stop
  rw [hp]

/-- Branch equation for `stop` with no handle and a status other than
`unmanaged` (including an id with no status entry at all). -/
theorem stop_noproc (lsof : Nat → Option (List Nat)) (pid : String)
    (s : ManagerState) (hp : s.processes pid = none)
    (hu : s.statuses pid ≠ some Status.unmanaged) :
    stop lsof pid s = some (false, s, []) := by
  unfold stop
  rw [hp]
  simp [hu]

/-- Branch equation for `stop` on an unmanaged registry project. -/
theorem stop_unmanaged (lsof : Nat → Option (List Nat)) (pid : String)
    (s : ManagerState) (info : ProjectInfo) (hp : s.processes pid = none)
    (hu : s.statuses pid = some Status.unmanaged)
    (hf : findInfo pid = some info) :
    stop lsof pid s = some (true,
      { s with statuses := upd s.statuses pid (some .stopped) },
      kill_port_events lsof info.port) := by
  unfold stop
  rw [hp]
  simp [hu, hf]

/-- Branch equation for `stop` on an unmanaged id outside the registry:
the Python code raises `KeyError` there. -/
theorem stop_unmanaged_unknown (lsof : Nat → Option (List Nat)) (pid : String)
    (s : ManagerState) (hp : s.processes pid = none)
    (hu : s.statuses pid = some Status.unmanaged) (hf : findInfo pid = none) :
    stop lsof pid s = none := by
  unfold stop
  rw [hp]
  simp [hu, hf]

/-- The `stop_all` loop body leaves other projects' entries untouched. -/
theorem stopAllStep_frame (lsof : Nat → Option (List Nat)) (q : String)
    (info : ProjectInfo) (s : ManagerState) (p : String) (h : p ≠ q) :
    entriesAt (stopAllStep lsof q info s) p = entriesAt s p := by
  unfold stopAllStep
  split
  · rcases hp : s.processes q with _ | proc
    · by_cases hu : s.statuses q = some Status.unmanaged
      · rcases hf : findInfo q with _ | i
        · rw [stop_unmanaged_unknown lsof q s hp hu hf]
        · rw [stop_unmanaged lsof q s i hp hu hf]
          simp [entriesAt, upd_ne _ _ _ _ h]
      · rw [stop_noproc lsof q s hp hu]
    · rw [stop_owned lsof q s proc hp]
      simp [entriesAt, upd_ne _ _ _ _ h]
  · rfl

/-- The `stop_all` loop body at `q` depends only on the entries at `q`. -/
theorem stopAllStep_local (lsof : Nat → Option (List Nat)) (q : String)
    (info : ProjectInfo) (s₁ s₂ : ManagerState)
    (h : entriesAt s₁ q = entriesAt s₂ q) :
    entriesAt (stopAllStep lsof q info s₁) q
      = entriesAt (stopAllStep lsof q info s₂) q := by
  have h1 := entriesAt_processes h
  have h2 := entriesAt_statuses h
  have h3 := entriesAt_exit_codes h
  have h4 := entriesAt_logs h
  unfold stopAllStep
  rw [h2]
  split
  · rcases hp : s₂.processes q with _ | proc
    · have hp1 : s₁.processes q = none := by rw [h1, hp]
      by_cases hu : s₂.statuses q = some Status.unmanaged
      · have hu1 : s₁.statuses q = some Status.unmanaged := by rw [h2, hu]
        rcases hf : findInfo q with _ | i
        · rw [stop_unmanaged_unknown lsof q s₁ hp1 hu1 hf,
              stop_unmanaged_unknown lsof q s₂ hp hu hf]
          exact h
        · rw [stop_unmanaged lsof q s₁ i hp1 hu1 hf,
              stop_unmanaged lsof q s₂ i hp hu hf]
          simp [entriesAt, upd_self, h1, h3, h4]
      · have hu1 : s₁.statuses q ≠ some Status.unmanaged := by rw [h2]; exact hu
        rw [stop_noproc lsof q s₁ hp1 hu1, stop_noproc lsof q s₂ hp hu]
        exact h
    · have hp1 : s₁.processes q = some proc := by rw [h1, hp]
      rw [stop_owned lsof q s₁ proc hp1, stop_owned lsof q s₂ proc hp]
      simp [entriesAt, upd_self, h4]
  · exact h

/-- The `stop_group` loop body is the `stop_all` body gated on the group. -/
theorem stopGroupStep_eq (group : String) (lsof : Nat → Option (List Nat))
    (q : String) (info : ProjectInfo) (t : ManagerState) :
    stopGroupStep group lsof q info t
      = if info.group = group then stopAllStep lsof q info t else t := by
  unfold stopGroupStep stopAllStep
  by_cases hg : info.group = group <;>
    by_cases ha : inActiveSet (t.statuses q) = true <;> simp [hg, ha]

theorem stopGroupStep_frame (group : String) (lsof : Nat → Option (List Nat))
    (q : String) (info : ProjectInfo) (s : ManagerState) (p : String)
    (h : p ≠ q) :
    entriesAt (stopGroupStep group lsof q info s) p = entriesAt s p := by
  rw [stopGroupStep_eq]
  split
  · exact stopAllStep_frame lsof q info s p h
  · rfl

theorem stopGroupStep_local (group : String) (lsof : Nat → Option (List Nat))
    (q : String) (info : ProjectInfo) (s₁ s₂ : ManagerState)
    (h : entriesAt s₁ q = entriesAt s₂ q) :
    entriesAt (stopGroupStep group lsof q info s₁) q
      = entriesAt (stopGroupStep group lsof q info s₂) q := by
  rw [stopGroupStep_eq, stopGroupStep_eq]
  split
  · exact stopAllStep_local lsof q info s₁ s₂ h
  · exact h

/-- The tick's effect on one registry project's entries is its single
`stepEntries` step. -/
theorem update_statuses_entriesAt (live : Nat → Bool) (poll : Nat → Option Int)
    (s : ManagerState) (pid : String) (info : ProjectInfo)
    (hmem : (pid, info) ∈ PROJECTS) :
    entriesAt (update_statuses live poll s) pid
      = stepEntries live poll info (entriesAt s pid) := by
  have h := foldl_entriesAt (stepProject live poll) (stepProject_frame live poll)
    (stepProject_local live poll) PROJECTS projects_keys_nodup pid info hmem s
  exact h.trans (stepProject_entries live poll pid info s)

/-- The tick leaves entries of ids outside the registry untouched. -/
theorem update_statuses_entriesAt_notmem (live : Nat → Bool)
    (poll : Nat → Option Int) (s : ManagerState) (pid : String)
    (hpid : ∀ x ∈ PROJECTS, x.1 ≠ pid) :
    entriesAt (update_statuses live poll s) pid = entriesAt s pid :=
  foldl_entriesAt_notmem (stepProject live poll) (stepProject_frame live poll)
    PROJECTS pid hpid s

/-- The effect of `stop_all` on one registry project's entries. -/
theorem stop_all_entriesAt (lsof : Nat → Option (List Nat)) (s : ManagerState)
    (pid : String) (info : ProjectInfo) (hmem : (pid, info) ∈ PROJECTS) :
    entriesAt (stop_all lsof s) pid = entriesAt (stopAllStep lsof pid info s) pid :=
  foldl_entriesAt (stopAllStep lsof) (stopAllStep_frame lsof)
    (stopAllStep_local lsof) PROJECTS projects_keys_nodup pid info hmem s

/-- The effect of `stop_group` on one registry project's entries. -/
theorem stop_group_entriesAt (group : String) (lsof : Nat → Option (List Nat))
    (s : ManagerState) (pid : String) (info : ProjectInfo)
    (hmem : (pid, info) ∈ PROJECTS) :
    entriesAt (stop_group group lsof s) pid
      = entriesAt (stopGroupStep group lsof pid info s) pid :=
  foldl_entriesAt (stopGroupStep group lsof) (stopGroupStep_frame group lsof)
    (stopGroupStep_local group lsof) PROJECTS projects_keys_nodup pid info hmem s

/-- Branch equation for `start` on an id outside the registry. -/
theorem start_unknown (env : StartEnv) (pid : String) (s : ManagerState)
    (hf : findInfo pid = none) : start env pid s = (false, s, []) := by
  unfold start
  rw [hf]

/-- Branch equation for `start` while status is running, building or
unmanaged. -/
theorem start_blocked (env : StartEnv) (pid : String) (s : ManagerState)
    (i : ProjectInfo) (hf : findInfo pid = some i)
    (ha : inActiveSet (s.statuses pid) = true) :
    start env pid s = (false, s, []) := by
  unfold start
  rw [hf]
  simp [ha]

/-- Branch equation for `start` when both directory markers are absent. -/
theorem start_nomarker (env : StartEnv) (pid : String) (s : ManagerState)
    (i : ProjectInfo) (hf : findInfo pid = some i)
    (ha : inActiveSet (s.statuses pid) = false)
    (hm1 : env.index_html = false) (hm2 : env.trunk_toml = false) :
    start env pid s
      = (false, { s with statuses := upd s.statuses pid (some .error) }, []) := by
  unfold start
  rw [hf]
  simp [ha, hm1, hm2]

/-- Branch equation for `start` when `Popen` raises `FileNotFoundError`. -/
theorem start_spawnfail (env : StartEnv) (pid : String) (s : ManagerState)
    (i : ProjectInfo) (hf : findInfo pid = some i)
    (ha : inActiveSet (s.statuses pid) = false)
    (hm : ¬(env.index_html = false ∧ env.trunk_toml = false))
    (hs : env.spawn = none) :
    start env pid s
      = (false,
         { s with logs := upd s.logs pid (some [])
                , statuses := upd s.statuses pid (some .error) },
         [Event.spawn_attempt]) := by
  unfold start
  rw [hf, hs]
  simp [ha, hm]

/-- Branch equation for a successful `start`. -/
theorem start_spawned (env : StartEnv) (pid : String) (s : ManagerState)
    (i : ProjectInfo) (proc : Proc) (hf : findInfo pid = some i)
    (ha : inActiveSet (s.statuses pid) = false)
    (hm : ¬(env.index_html = false ∧ env.trunk_toml = false))
    (hs : env.spawn = some proc) :
    start env pid s
      = (true,
         { s with logs := upd s.logs pid (some [])
                , processes := upd s.processes pid (some proc)
                , statuses := upd s.statuses pid (some .building)
                , exit_codes := upd s.exit_codes pid none },
         [Event.spawn_attempt]) := by
  unfold start
  rw [hf, hs]
  simp [ha, hm]

/-- Under the ownership invariant, a project whose status is not in the
active set holds no handle. -/
theorem inv_no_handle (s : ManagerState) (pid : String) (hInv : Inv s)
    (ha : inActiveSet (s.statuses pid) = false) : s.processes pid = none := by
  cases hp : s.processes pid with
  | none => rfl
  | some proc =>
    rcases hInv pid proc hp with hb | hr
    · rw [hb] at ha
      exact absurd ha (by decide)
    · rw [hr] at ha
      exact absurd ha (by decide)

/-- Concrete fixtures used by the witnesses and counterexamples below. -/
def liveNone : Nat → Bool := fun _ => false

def logsNone : String → Option (List String) := fun _ => none

def lsofNone : Nat → Option (List Nat) := fun _ => none

/-- Manager state right after `__init__` with every port closed: every
registry project `stopped`, no handles, no exit codes, no log files. -/
def sBase : ManagerState := initState liveNone logsNone

def procA : Proc :=
  { pid := 101, pgid := 101, term_ok := true, exits_in_grace := true
  , kill_ok := true, returncode := some 0 }

theorem invBase : Inv sBase := fun _ _ h => Option.noConfusion h

/-- `sBase` with the `welcome` project owned and `running`. -/
def sRun : ManagerState :=
  { sBase with processes := upd sBase.processes "welcome" (some procA)
             , statuses := upd sBase.statuses "welcome" (some .running) }

def infoWelcome : ProjectInfo := ⟨"Welcome", 8080, "WELCOME", "MAIN"⟩

/-- C2: for every id, `start(id)` returns failure without spawning a
process or mutating any state when the id is not a known Project or when
the current status is `running`, `building`, or `unmanaged`; `start`
proceeds only from a status other than those (in particular from `stopped`
or `error`). -/
theorem start_precondition_noop (env : StartEnv) (pid : String)
    (s : ManagerState) :
    (findInfo pid = none → start env pid s = (false, s, [])) ∧
    (inActiveSet (s.statuses pid) = true → start env pid s = (false, s, [])) ∧
    (∀ st, s.statuses pid = some st → st ≠ Status.stopped → st ≠ Status.error →
      start env pid s = (false, s, [])) := by
  refine ⟨?_, ?_, ?_⟩
  · intro hf
    exact start_unknown env pid s hf
  · intro ha
    rcases hf : findInfo pid with _ | i
    · exact start_unknown env pid s hf
    · exact start_blocked env pid s i hf ha
  · intro st hst h1 h2
    have ha : inActiveSet (s.statuses pid) = true := by
      rw [hst]
      cases st with
      | stopped => exact absurd rfl h1
      | error => exact absurd rfl h2
      | building => rfl
      | running => rfl
      | unmanaged => rfl
    rcases hf : findInfo pid with _ | i
    · exact start_unknown env pid s hf
    · exact start_blocked env pid s i hf ha

/-- Witness for C2: starting the unknown id `nosuch`, and starting the
`welcome` project while it is `running`, both fail and change nothing. -/
theorem start_precondition_noop_witness :
    start ⟨true, false, some procA⟩ "nosuch" sBase = (false, sBase, []) ∧
    start ⟨true, false, some procA⟩ "welcome" sRun = (false, sRun, []) :=
  ⟨(start_precondition_noop ⟨true, false, some procA⟩ "nosuch" sBase).1 (by decide),
   (start_precondition_noop ⟨true, false, some procA⟩ "welcome" sRun).2.1 (by rfl)⟩

/-- C4: under the ownership invariant, `stop(id)` on a project whose
status is already `stopped` returns failure and leaves the entire state
(statuses, handles, exit codes, logs) unchanged, performing no OS
signalling. -/
theorem stop_on_stopped_noop (lsof : Nat → Option (List Nat)) (pid : String)
    (s : ManagerState) (hInv : Inv s)
    (h : s.statuses pid = some Status.stopped) :
    stop lsof pid s = some (false, s, []) := by
  have ha : inActiveSet (s.statuses pid) = false := by rw [h]; rfl
  have hp : s.processes pid = none := inv_no_handle s pid hInv ha
  exact stop_noproc lsof pid s hp (by rw [h]; simp)

/-- Witness for C4: stopping the `stopped` project `welcome` in the
freshly initialized state fails and changes nothing. -/
theorem stop_on_stopped_noop_witness :
    stop lsofNone "welcome" sBase = some (false, sBase, []) :=
  stop_on_stopped_noop lsofNone "welcome" sBase invBase (by rfl)

/-- C10: for every id with no owned handle whose status is not
`unmanaged` — including status `error` and ids absent from the registry —
`stop(id)` returns failure without raising any exception (a non-`none`
result) and leaves all state unchanged. -/
theorem stop_no_handle_noop (lsof : Nat → Option (List Nat)) (pid : String)
    (s : ManagerState) (hp : s.processes pid = none)
    (hu : s.statuses pid ≠ some Status.unmanaged) :
    stop lsof pid s = some (false, s, []) :=
  stop_noproc lsof pid s hp hu

/-- Witness for C10: stopping the unknown id `nosuch` (no status entry at
all) fails, raises nothing, and changes nothing. -/
theorem stop_no_handle_noop_witness :
    stop lsofNone "nosuch" sBase = some (false, sBase, []) :=
  stop_no_handle_noop lsofNone "nosuch" sBase (by rfl) (by decide)

/-- C3: for every project with an owned handle, `stop(id)` sends SIGTERM
to the process group (whenever the group lookup succeeds), waits at most
the 3-second grace period, escalates to SIGKILL of the group exactly when
the process is still alive after the grace period (and the lookup
succeeds), releases the handle, records the process's exit code, sets
status to `stopped`, and returns success unconditionally. -/
theorem stop_owned_sequence (lsof : Nat → Option (List Nat)) (pid : String)
    (s : ManagerState) (proc : Proc) (hp : s.processes pid = some proc) :
    ∃ s2 evs, stop lsof pid s = some (true, s2, evs) ∧
      s2.processes pid = none ∧
      s2.statuses pid = some Status.stopped ∧
      s2.exit_codes pid = proc.returncode ∧
      (proc.term_ok = true → Event.sigterm_pg proc.pgid ∈ evs) ∧
      Event.wait_grace 3 ∈ evs ∧
      (proc.exits_in_grace = false → proc.kill_ok = true →
        Event.sigkill_pg proc.pgid ∈ evs) ∧
      (proc.exits_in_grace = true → Event.sigkill_pg proc.pgid ∉ evs) := by
  refine ⟨_, _, stop_owned lsof pid s proc hp, ?_, ?_, ?_, ?_, ?_, ?_, ?_⟩
  · exact upd_self s.processes pid none
  · exact upd_self s.statuses pid (some .stopped)
  · exact upd_self s.exit_codes pid proc.returncode
  · intro ht
    rw [ht]
    simp
  · cases proc.term_ok <;> simp
  · intro he hk
    rw [he, hk]
    cases proc.term_ok <;> simp
  · intro he
    rw [he]
    cases proc.term_ok <;> simp

/-- Witness for C3: stopping the running owned project `welcome`
terminates it, records exit code 0, and emits SIGTERM plus the bounded
wait. -/
theorem stop_owned_sequence_witness :
    ∃ s2 evs, stop lsofNone "welcome" sRun = some (true, s2, evs) ∧
      s2.processes "welcome" = none ∧
      s2.statuses "welcome" = some Status.stopped ∧
      s2.exit_codes "welcome" = procA.returncode ∧
      (procA.term_ok = true → Event.sigterm_pg procA.pgid ∈ evs) ∧
      Event.wait_grace 3 ∈ evs ∧
      (procA.exits_in_grace = false → procA.kill_ok = true →
        Event.sigkill_pg procA.pgid ∈ evs) ∧
      (procA.exits_in_grace = true → Event.sigkill_pg procA.pgid ∉ evs) :=
  stop_owned_sequence lsofNone "welcome" sRun procA (by rfl)

/-- C7: a successful `start(id)` records the newly spawned handle, sets
status to `building`, clears `lastExitCode` to none, and returns
success. -/
theorem start_success_effects (env : StartEnv) (pid : String)
    (s : ManagerState) (h : (start env pid s).1 = true) :
    ∃ proc, env.spawn = some proc ∧
      (start env pid s).2.1.processes pid = some proc ∧
      (start env pid s).2.1.statuses pid = some Status.building ∧
      (start env pid s).2.1.exit_codes pid = none := by
  rcases hf : findInfo pid with _ | i
  · rw [start_unknown env pid s hf] at h
    cases h
  rcases ha : inActiveSet (s.statuses pid) with _ | _
  case false =>
    by_cases hm : env.index_html = false ∧ env.trunk_toml = false
    · rw [start_nomarker env pid s i hf ha hm.1 hm.2] at h
      cases h
    · rcases hs : env.spawn with _ | proc
      · rw [start_spawnfail env pid s i hf ha hm hs] at h
        cases h
      · refine ⟨proc, rfl, ?_, ?_, ?_⟩ <;>
          rw [start_spawned env pid s i proc hf ha hm hs] <;>
          exact upd_self _ _ _
  case true =>
    rw [start_blocked env pid s i hf ha] at h
    cases h

/-- Witness for C7: starting the stopped `welcome` project with the entry
marker present and a successful spawn records the handle, status
`building`, and a cleared exit code. -/
theorem start_success_effects_witness :
    ∃ proc, (⟨true, false, some procA⟩ : StartEnv).spawn = some proc ∧
      (start ⟨true, false, some procA⟩ "welcome" sBase).2.1.processes "welcome"
        = some proc ∧
      (start ⟨true, false, some procA⟩ "welcome" sBase).2.1.statuses "welcome"
        = some Status.building ∧
      (start ⟨true, false, some procA⟩ "welcome" sBase).2.1.exit_codes "welcome"
        = none :=
  start_success_effects ⟨true, false, some procA⟩ "welcome" sBase (by rfl)

/-- C8: for a known project that passes the status precondition, if the
working directory lacks both the entry-file and build-manifest markers, or
the OS refuses to spawn the external tool, then `start(id)` sets status to
`error` and returns failure without recording any owned handle. -/
theorem start_failure_sets_error (env : StartEnv) (pid : String)
    (s : ManagerState) (i : ProjectInfo) (hInv : Inv s)
    (hf : findInfo pid = some i)
    (ha : inActiveSet (s.statuses pid) = false)
    (hfail : (env.index_html = false ∧ env.trunk_toml = false) ∨
      env.spawn = none) :
    (start env pid s).1 = false ∧
    (start env pid s).2.1.statuses pid = some Status.error ∧
    (start env pid s).2.1.processes pid = none := by
  have hp : s.processes pid = none := inv_no_handle s pid hInv ha
  by_cases hm : env.index_html = false ∧ env.trunk_toml = false
  · rw [start_nomarker env pid s i hf ha hm.1 hm.2]
    exact ⟨rfl, upd_self _ _ _, hp⟩
  · rcases hfail with hm2 | hs
    · exact absurd hm2 hm
    · rw [start_spawnfail env pid s i hf ha hm hs]
      exact ⟨rfl, upd_self _ _ _, hp⟩

/-- Witness for C8: starting `welcome` with both markers missing fails,
marks the project `error`, and records no handle. -/
theorem start_failure_sets_error_witness :
    (start ⟨false, false, some procA⟩ "welcome" sBase).1 = false ∧
    (start ⟨false, false, some procA⟩ "welcome" sBase).2.1.statuses "welcome"
      = some Status.error ∧
    (start ⟨false, false, some procA⟩ "welcome" sBase).2.1.processes "welcome"
      = none :=
  start_failure_sets_error ⟨false, false, some procA⟩ "welcome" sBase
    infoWelcome invBase (by rfl) (by rfl) (Or.inl ⟨rfl, rfl⟩)

/-- `sBase` with a surviving log file from an earlier run of `welcome`. -/
def sLog : ManagerState :=
  { sBase with logs := upd sBase.logs "welcome" (some ["line from a previous run"]) }

/-- Counterexample to C6: `start` opens the log file in write mode, which
truncates it — a successful start of `welcome` leaves the log empty, so
the previously persisted line is not preserved as a prefix of the new
contents. -/
theorem start_log_truncation_cex :
    (start ⟨true, false, some procA⟩ "welcome" sLog).1 = true ∧
    sLog.logs "welcome" = some ["line from a previous run"] ∧
    ¬ ∃ rest, (start ⟨true, false, some procA⟩ "welcome" sLog).2.1.logs "welcome"
        = some ("line from a previous run" :: rest) := by
  refine ⟨by rfl, by rfl, ?_⟩
  rintro ⟨rest, hr⟩
  have hz : (start ⟨true, false, some procA⟩ "welcome" sLog).2.1.logs "welcome"
      = some ([] : List String) := by rfl
  rw [hz] at hr
  exact List.noConfusion (Option.some.inj hr)

/-- C6 (amended): a successful `start(id)` truncates the project's log
file to empty before spawning — the new process's output then accumulates
in this fresh file, and log contents persisted by earlier runs are not
preserved. -/
theorem start_truncates_log (env : StartEnv) (pid : String)
    (s : ManagerState) (h : (start env pid s).1 = true) :
    (start env pid s).2.1.logs pid = some [] := by
  rcases hf : findInfo pid with _ | i
  · rw [start_unknown env pid s hf] at h
    cases h
  rcases ha : inActiveSet (s.statuses pid) with _ | _
  case false =>
    by_cases hm : env.index_html = false ∧ env.trunk_toml = false
    · rw [start_nomarker env pid s i hf ha hm.1 hm.2] at h
      cases h
    · rcases hs : env.spawn with _ | proc
      · rw [start_spawnfail env pid s i hf ha hm hs] at h
        cases h
      · rw [start_spawned env pid s i proc hf ha hm hs]
        exact upd_self _ _ _
  case true =>
    rw [start_blocked env pid s i hf ha] at h
    cases h

/-- Witness for the amended C6: successfully starting `welcome` over its
surviving log leaves the log file empty. -/
theorem start_truncates_log_witness :
    (start ⟨true, false, some procA⟩ "welcome" sLog).2.1.logs "welcome"
      = some [] :=
  start_truncates_log ⟨true, false, some procA⟩ "welcome" sLog (by rfl)

/-- Counterexample to C5: `stop_all` is not a caller-side no-op — called
on a state where `welcome` is running under an owned handle, it has
already stopped the project when it returns, so the iteration did not
happen on a background task for all four bulk operations. -/
theorem stop_all_synchronous_cex : stop_all lsofNone sRun ≠ sRun := by
  intro h
  have h2 : (stop_all lsofNone sRun).statuses "welcome"
      = sRun.statuses "welcome" :=
    congrArg (fun t => t.statuses "welcome") h
  have h3 : (stop_all lsofNone sRun).statuses "welcome"
      = some Status.stopped := by rfl
  have h4 : sRun.statuses "welcome" = some Status.running := by rfl
  rw [h3, h4] at h2
  exact Status.noConfusion (Option.some.inj h2)

/-- C5 (amended): only `startAll` and `startGroup` return immediately with
no caller-visible state mutation, their iteration running on a background
task; `stopAll` and `stopGroup` perform the stop iteration synchronously
in the caller — a running owned member is already stopped, its handle
released, by the time the call returns. -/
theorem bulk_operations_sync_split :
    (∀ s, start_all_sync s = s) ∧
    (∀ g s, start_group_sync g s = s) ∧
    (∀ lsof s pid info proc, (pid, info) ∈ PROJECTS →
      s.processes pid = some proc → s.statuses pid = some Status.running →
      (stop_all lsof s).statuses pid = some Status.stopped ∧
      (stop_all lsof s).processes pid = none) ∧
    (∀ g lsof s pid info proc, (pid, info) ∈ PROJECTS → info.group = g →
      s.processes pid = some proc → s.statuses pid = some Status.running →
      (stop_group g lsof s).statuses pid = some Status.stopped ∧
      (stop_group g lsof s).processes pid = none) := by
  refine ⟨fun _ => rfl, fun _ _ => rfl, ?_, ?_⟩
  · intro lsof s pid info proc hmem hp hst
    have ha : inActiveSet (s.statuses pid) = true := by rw [hst]; rfl
    have hE : entriesAt (stop_all lsof s) pid
        = (none, some Status.stopped, proc.returncode, s.logs pid) := by
      rw [stop_all_entriesAt lsof s pid info hmem]
      unfold stopAllStep
      rw [stop_owned lsof pid s proc hp]
      simp [ha, entriesAt, upd_self]
    exact ⟨congrArg (fun e => e.2.1) hE, congrArg (fun e => e.1) hE⟩
  · intro g lsof s pid info proc hmem hg hp hst
    have ha : inActiveSet (s.statuses pid) = true := by rw [hst]; rfl
    have hE : entriesAt (stop_group g lsof s) pid
        = (none, some Status.stopped, proc.returncode, s.logs pid) := by
      rw [stop_group_entriesAt g lsof s pid info hmem, stopGroupStep_eq]
      rw [if_pos hg]
      unfold stopAllStep
      rw [stop_owned lsof pid s proc hp]
      simp [ha, entriesAt, upd_self]
    exact ⟨congrArg (fun e => e.2.1) hE, congrArg (fun e => e.1) hE⟩

/-- Witness for the amended C5: stopping all projects from the state where
`welcome` runs under an owned handle has stopped `welcome` and released
its handle by the time `stop_all` returns. -/
theorem bulk_operations_sync_split_witness :
    (stop_all lsofNone sRun).statuses "welcome" = some Status.stopped ∧
    (stop_all lsofNone sRun).processes "welcome" = none :=
  bulk_operations_sync_split.2.2.1 lsofNone sRun "welcome" infoWelcome procA
    (by decide) (by rfl) (by rfl)

/-- C1: the reconciliation step, per registry project per tick, computes
exactly the spec's transition table as a function of (current status,
owned-handle-exited?, exit code, port-live?): with an owned handle, exit
code 0 gives `stopped` with `exitCode 0` and the handle released, a
non-zero exit code gives `error` with that code recorded (handle also
released), not-exited with the port live gives `running` and with the port
not live gives `building`; with no handle, `unmanaged` with the port dead
becomes `stopped`, `unmanaged` with the port live stays `unmanaged`,
`stopped` with the port live becomes `unmanaged`, `stopped` with the port
dead stays `stopped`, and `error` stays `error`. -/
theorem reconcile_transition_table (live : Nat → Bool) (poll : Nat → Option Int)
    (s : ManagerState) (pid : String) (info : ProjectInfo)
    (hmem : (pid, info) ∈ PROJECTS) :
    (∀ proc, s.processes pid = some proc →
      (∀ rc, poll proc.pid = some rc →
        (update_statuses live poll s).processes pid = none ∧
        (update_statuses live poll s).exit_codes pid = some rc ∧
        (update_statuses live poll s).statuses pid
          = some (if rc = 0 then Status.stopped else Status.error)) ∧
      (poll proc.pid = none →
        (update_statuses live poll s).processes pid = some proc ∧
        (update_statuses live poll s).statuses pid
          = some (if live info.port then Status.running else Status.building))) ∧
    (s.processes pid = none →
      (s.statuses pid = some Status.unmanaged →
        (update_statuses live poll s).statuses pid
          = some (if live info.port then Status.unmanaged else Status.stopped)) ∧
      (s.statuses pid = some Status.stopped →
        (update_statuses live poll s).statuses pid
          = some (if live info.port then Status.unmanaged else Status.stopped)) ∧
      (s.statuses pid = some Status.error →
        (update_statuses live poll s).statuses pid = some Status.error)) := by
  have hent := update_statuses_entriesAt live poll s pid info hmem
  have hps : (update_statuses live poll s).processes pid
      = (stepEntries live poll info (entriesAt s pid)).1 :=
    congrArg (fun e => e.1) hent
  have hst : (update_statuses live poll s).statuses pid
      = (stepEntries live poll info (entriesAt s pid)).2.1 :=
    congrArg (fun e => e.2.1) hent
  have hec : (update_statuses live poll s).exit_codes pid
      = (stepEntries live poll info (entriesAt s pid)).2.2.1 :=
    congrArg (fun e => e.2.2.1) hent
  constructor
  · intro proc hproc
    constructor
    · intro rc hrc
      refine ⟨?_, ?_, ?_⟩
      · rw [hps]
        simp [stepEntries, entriesAt, hproc, hrc]
      · rw [hec]
        simp [stepEntries, entriesAt, hproc, hrc]
      · rw [hst]
        simp [stepEntries, entriesAt, hproc, hrc]
    · intro hrc
      constructor
      · rw [hps]
        simp [stepEntries, entriesAt, hproc, hrc]
      · rw [hst]
        simp [stepEntries, entriesAt, hproc, hrc]
  · intro hproc
    refine ⟨?_, ?_, ?_⟩ <;> intro hstat
    · rw [hst]
      simp [stepEntries, entriesAt, hproc, hstat]
    · rw [hst]
      simp [stepEntries, entriesAt, hproc, hstat]
    · rw [hst]
      simp [stepEntries, entriesAt, hproc, hstat]

/-- Witness for C1: in the state where `welcome` runs under an owned
handle and that process has exited with code 0, one tick makes `welcome`
`stopped` with exit code 0 and the handle released. -/
theorem reconcile_transition_table_witness :
    (update_statuses liveNone (fun _ => some 0) sRun).processes "welcome"
      = none ∧
    (update_statuses liveNone (fun _ => some 0) sRun).exit_codes "welcome"
      = some 0 ∧
    (update_statuses liveNone (fun _ => some 0) sRun).statuses "welcome"
      = some Status.stopped := by
  have h := ((reconcile_transition_table liveNone (fun _ => some 0) sRun
      "welcome" infoWelcome (by decide)).1 procA (by rfl)).1 0 (by rfl)
  exact ⟨h.1, h.2.1, by rw [h.2.2]; rfl⟩

/-- C9: an owned handle is present only while the project's status is
`building` or `running` — the invariant holds at initialization and is
preserved by `start`, by `stop` (on every non-exceptional return), and by
the reconciliation tick. -/
theorem handle_ownership_invariant :
    (∀ live logs0, Inv (initState live logs0)) ∧
    (∀ env pid s, Inv s → Inv (start env pid s).2.1) ∧
    (∀ lsof pid s r, Inv s → stop lsof pid s = some r → Inv r.2.1) ∧
    (∀ live poll s, Inv s → Inv (update_statuses live poll s)) := by
  refine ⟨?_, ?_, ?_, ?_⟩
  · intro live logs0 pid proc h
    exact Option.noConfusion h
  · intro env pid s hInv q proc hq
    rcases hf : findInfo pid with _ | i
    · rw [start_unknown env pid s hf] at hq ⊢
      exact hInv q proc hq
    rcases ha : inActiveSet (s.statuses pid) with _ | _
    case true =>
      rw [start_blocked env pid s i hf ha] at hq ⊢
      exact hInv q proc hq
    case false =>
      by_cases hm : env.index_html = false ∧ env.trunk_toml = false
      · rw [start_nomarker env pid s i hf ha hm.1 hm.2] at hq ⊢
        by_cases hqp : q = pid
        · subst hqp
          have hq2 : s.processes q = some proc := hq
          rw [inv_no_handle s q hInv ha] at hq2
          cases hq2
        · rcases hInv q proc hq with hb | hr
          · left
            show upd s.statuses pid (some Status.error) q = some Status.building
            rw [upd_ne _ _ _ _ hqp]
            exact hb
          · right
            show upd s.statuses pid (some Status.error) q = some Status.running
            rw [upd_ne _ _ _ _ hqp]
            exact hr
      · rcases hs : env.spawn with _ | p0
        · rw [start_spawnfail env pid s i hf ha hm hs] at hq ⊢
          by_cases hqp : q = pid
          · subst hqp
            have hq2 : s.processes q = some proc := hq
            rw [inv_no_handle s q hInv ha] at hq2
            cases hq2
          · rcases hInv q proc hq with hb | hr
            · left
              show upd s.statuses pid (some Status.error) q = some Status.building
              rw [upd_ne _ _ _ _ hqp]
              exact hb
            · right
              show upd s.statuses pid (some Status.error) q = some Status.running
              rw [upd_ne _ _ _ _ hqp]
              exact hr
        · rw [start_spawned env pid s i p0 hf ha hm hs] at hq ⊢
          by_cases hqp : q = pid
          · subst hqp
            left
            exact upd_self s.statuses q (some Status.building)
          · have hq2 : s.processes q = some proc := by
              have h3 : upd s.processes pid (some p0) q = some proc := hq
              rwa [upd_ne _ _ _ _ hqp] at h3
            rcases hInv q proc hq2 with hb | hr
            · left
              show upd s.statuses pid (some Status.building) q = some Status.building
              rw [upd_ne _ _ _ _ hqp]
              exact hb
            · right
              show upd s.statuses pid (some Status.building) q = some Status.running
              rw [upd_ne _ _ _ _ hqp]
              exact hr
  · intro lsof pid s r hInv hstop q proc hq
    rcases hp : s.processes pid with _ | p0
    · by_cases hu : s.statuses pid = some Status.unmanaged
      · rcases hfind : findInfo pid with _ | i
        · rw [stop_unmanaged_unknown lsof pid s hp hu hfind] at hstop
          cases hstop
        · rw [stop_unmanaged lsof pid s i hp hu hfind] at hstop
          have h2 := Option.some.inj hstop
          subst h2
          by_cases hqp : q = pid
          · subst hqp
            have hq2 : s.processes q = some proc := hq
            rw [hp] at hq2
            cases hq2
          · have hq2 : s.processes q = some proc := hq
            rcases hInv q proc hq2 with hb | hr
            · left
              show upd s.statuses pid (some Status.stopped) q = some Status.building
              rw [upd_ne _ _ _ _ hqp]
              exact hb
            · right
              show upd s.statuses pid (some Status.stopped) q = some Status.running
              rw [upd_ne _ _ _ _ hqp]
              exact hr
      · rw [stop_noproc lsof pid s hp hu] at hstop
        have h2 := Option.some.inj hstop
        subst h2
        exact hInv q proc hq
    · rw [stop_owned lsof pid s p0 hp] at hstop
      have h2 := Option.some.inj hstop
      subst h2
      by_cases hqp : q = pid
      · subst hqp
        have hq2 : upd s.processes q none q = some proc := hq
        rw [upd_self] at hq2
        cases hq2
      · have hq2 : s.processes q = some proc := by
          have h3 : upd s.processes pid none q = some proc := hq
          rwa [upd_ne _ _ _ _ hqp] at h3
        rcases hInv q proc hq2 with hb | hr
        · left
          show upd s.statuses pid (some Status.stopped) q = some Status.building
          rw [upd_ne _ _ _ _ hqp]
          exact hb
        · right
          show upd s.statuses pid (some Status.stopped) q = some Status.running
          rw [upd_ne _ _ _ _ hqp]
          exact hr
  · intro live poll s hInv q proc hq
    by_cases hqmem : q ∈ PROJECTS.map Prod.fst
    · rcases List.mem_map.mp hqmem with ⟨x, hx, hxq⟩
      have hmem2 : (q, x.2) ∈ PROJECTS := by
        have he : (x.1, x.2) = x := Prod.mk.eta
        rw [← hxq, he]
        exact hx
      have hent := update_statuses_entriesAt live poll s q x.2 hmem2
      have hps : (update_statuses live poll s).processes q
          = (stepEntries live poll x.2 (entriesAt s q)).1 :=
        congrArg (fun e => e.1) hent
      have hst : (update_statuses live poll s).statuses q
          = (stepEntries live poll x.2 (entriesAt s q)).2.1 :=
        congrArg (fun e => e.2.1) hent
      rw [hps] at hq
      rw [hst]
      rcases hproc : s.processes q with _ | p0
      · rcases hstat : s.statuses q with _ | st
        · simp [stepEntries, entriesAt, hproc, hstat] at hq
        · cases st <;> simp [stepEntries, entriesAt, hproc, hstat] at hq
      · rcases hpoll : poll p0.pid with _ | rc
        · simp only [stepEntries, entriesAt, hproc, hpoll]
          cases hlp : live x.2.port
          · left
            simp [hlp]
          · right
            simp [hlp]
        · simp [stepEntries, entriesAt, hproc, hpoll] at hq
    · have hpid : ∀ x ∈ PROJECTS, x.1 ≠ q := by
        intro x hx he
        have h1 : x.1 ∈ PROJECTS.map Prod.fst := List.mem_map_of_mem Prod.fst hx
        rw [he] at h1
        exact hqmem h1
      have hent := update_statuses_entriesAt_notmem live poll s q hpid
      have hps := entriesAt_processes hent
      have hst := entriesAt_statuses hent
      rw [hps] at hq
      rw [hst]
      exact hInv q proc hq

/-- Witness for C9: the invariant holds after a tick on the freshly
initialized state. -/
theorem handle_ownership_invariant_witness :
    Inv (update_statuses liveNone (fun _ => none) sBase) :=
  handle_ownership_invariant.2.2.2 liveNone (fun _ => none) sBase invBase

end S3M2P
